import Mathlib

set_option maxRecDepth 8000

/-!
Verification development for the persistent package store in `src/db.rs`
of `pulsar-migrator-issue-bot`.

The data model (`DatabaseThingData`, `PackageState`, `PackageNew`,
`PackageIssueFiled`, `Repository`, `DatabaseThingMeta`) is translated
directly from the Rust structs.  The store operations (`DatabaseThing.new`,
`DatabaseThing.add_package`, `DatabaseThing.contains_package`,
`DatabaseThing.write_to_file_immediately`, `DatabaseThing.drop`) are
translated from the Rust methods, with the mutex-guarded shared state
embedded as explicit state passing and file I/O embedded as explicit
inputs (file read outcome, write success flag) and outputs (written
content, logged message).

The Format Adapter (`encode` / `decode`) is the `ron` crate, whose code is
not part of this repository.  Modelled from the spec: `encode` produces the
deterministic pretty rendering (explicit struct/variant names, fields in
declaration order with `name:` labels, tab indentation, LF line endings,
string escaping, decimal integers) and `decode` is a recursive-descent
reader of that textual form (whitespace tolerant, rejecting out-of-range
u32 values and malformed input).
-/

/-- RON inter-token whitespace characters (space, LF, TAB, CR). -/
def isWs (c : Char) : Bool :=
  c.toNat == 32 || c.toNat == 10 || c.toNat == 9 || c.toNat == 13

/-- Decimal digit characters. -/
def isDig (c : Char) : Bool := 48 ≤ c.toNat && c.toNat ≤ 57

/-- Numeric value of a decimal digit character. -/
def digVal (c : Char) : Nat := c.toNat - 48

/-- The decimal digit character for a value below ten. -/
def digChar (n : Nat) : Char := Char.ofNat (48 + n)

/-- Mirrors `struct Repository` (src/db.rs lines 50-54); the Rust field
`r#type` serializes under the name `type`. -/
structure Repository where
  type : String
  url : String
deriving DecidableEq

/-- Mirrors `struct PackageNew` (src/db.rs lines 42-48); `u32` fields are
embedded as naturals below `2 ^ 32`. -/
structure PackageNew where
  name : String
  repository : Repository
  downloads : Fin 4294967296
  stargazers_count : Fin 4294967296
deriving DecidableEq

/-- Mirrors `struct PackageIssueFiled` (src/db.rs lines 56-62): its
repository is a two-string tuple, not a `Repository`. -/
structure PackageIssueFiled where
  name : String
  repository : String × String
  downloads : Fin 4294967296
  stargazers_count : Fin 4294967296
deriving DecidableEq

/-- Mirrors `enum PackageState` (src/db.rs lines 36-40). -/
inductive PackageState where
  | New : PackageNew → PackageState
  | IssueFiled : PackageIssueFiled → PackageState
deriving DecidableEq

/-- Mirrors `struct DatabaseThingData` (src/db.rs lines 26-30). -/
structure DatabaseThingData where
  saved_on_panic : Bool
  packages : List PackageState
deriving DecidableEq

/-- Mirrors `struct DatabaseThingMeta` (src/db.rs lines 21-24); the
`SystemTime` timestamp is embedded as an abstract tick counter. -/
structure DatabaseThingMeta where
  filename : String
  last_write_call_time : Nat
deriving DecidableEq

/-- Mirrors `struct DatabaseThingInner` (src/db.rs lines 16-19): the state
behind the store's mutex. -/
structure DatabaseThingInner where
  meta : DatabaseThingMeta
  data : DatabaseThingData
deriving DecidableEq

/-- The name field of a record, common to both variants. -/
def packageName : PackageState → String
  | PackageState.New p => p.name
  | PackageState.IssueFiled p => p.name

/-! Tokens of the serialized form. -/

def tokData : List Char := "DatabaseThingData(".data
def tokSaved : List Char := "saved_on_panic:".data
def tokPackages : List Char := "packages:".data
def tokNewV : List Char := "New(".data
def tokIssueV : List Char := "IssueFiled(".data
def tokPackageNew : List Char := "PackageNew(".data
def tokPackageIssueFiled : List Char := "PackageIssueFiled(".data
def tokRepositoryS : List Char := "Repository(".data
def tokName : List Char := "name:".data
def tokRepositoryF : List Char := "repository:".data
def tokDownloads : List Char := "downloads:".data
def tokStargazers : List Char := "stargazers_count:".data
def tokType : List Char := "type:".data
def tokUrl : List Char := "url:".data
def tokTrue : List Char := "true".data
def tokFalse : List Char := "false".data
def spc : List Char := [' ']
def comma : List Char := [',']
def oparen : List Char := ['(']
def cparen : List Char := [')']
def obk : List Char := ['[']
def cbk : List Char := [']']

/-- `n` tab characters. -/
def tabs : Nat → List Char
  | 0 => []
  | Nat.succ n => '\t' :: tabs n

/-- A line break followed by indentation of depth `i`. -/
def nlt (i : Nat) : List Char := '\n' :: tabs i

/-! The encoder. Modelled from the spec: deterministic pretty rendering
with explicit struct names, tab indentation and LF line endings. -/

/-- String escaping: backslash and double quote are escaped, every other
scalar is emitted literally. -/
def escChar (c : Char) : List Char :=
  if c = '"' ∨ c = '\\' then ['\\', c] else [c]

def encStrChars : List Char → List Char
  | [] => []
  | c :: rest => escChar c ++ encStrChars rest

/-- A double-quoted, escaped string literal. -/
def encStrLit (s : String) : List Char := '"' :: (encStrChars s.data ++ ['"'])

/-- Decimal digits of `n`, most significant first, accumulated onto `acc`;
`fuel` bounds the number of digits (any `fuel > n` is enough). -/
def encNatAux : Nat → Nat → List Char → List Char
  | 0, _, acc => acc
  | fuel + 1, n, acc =>
    if n < 10 then digChar n :: acc
    else encNatAux fuel (n / 10) (digChar (n % 10) :: acc)

def encNat (n : Nat) : List Char := encNatAux (n + 1) n []

def encU32 (v : Fin 4294967296) : List Char := encNat v.val

def encBool (b : Bool) : List Char := cond b tokTrue tokFalse

/-- One pretty-printed struct field: line break, indentation, field-name
token, a space, the value, and a trailing comma. -/
def encField (j : Nat) (tok v : List Char) : List Char :=
  nlt j ++ (tok ++ (spc ++ (v ++ comma)))

def encRepository (i : Nat) (r : Repository) : List Char :=
  tokRepositoryS ++ (encField (i + 1) tokType (encStrLit r.type) ++
    (encField (i + 1) tokUrl (encStrLit r.url) ++ (nlt i ++ cparen)))

def encPair (p : String × String) : List Char :=
  oparen ++ (encStrLit p.1 ++ (comma ++ (spc ++ (encStrLit p.2 ++ cparen))))

def encPackageNew (i : Nat) (p : PackageNew) : List Char :=
  tokPackageNew ++ (encField (i + 1) tokName (encStrLit p.name) ++
    (encField (i + 1) tokRepositoryF (encRepository (i + 1) p.repository) ++
    (encField (i + 1) tokDownloads (encU32 p.downloads) ++
    (encField (i + 1) tokStargazers (encU32 p.stargazers_count) ++
    (nlt i ++ cparen)))))

def encPackageIssueFiled (i : Nat) (p : PackageIssueFiled) : List Char :=
  tokPackageIssueFiled ++ (encField (i + 1) tokName (encStrLit p.name) ++
    (encField (i + 1) tokRepositoryF (encPair p.repository) ++
    (encField (i + 1) tokDownloads (encU32 p.downloads) ++
    (encField (i + 1) tokStargazers (encU32 p.stargazers_count) ++
    (nlt i ++ cparen)))))

def encPackageState (i : Nat) : PackageState → List Char
  | PackageState.New p => tokNewV ++ (encPackageNew i p ++ cparen)
  | PackageState.IssueFiled p => tokIssueV ++ (encPackageIssueFiled i p ++ cparen)

/-- Body of the packages sequence: each element on its own indented line,
followed by a comma. -/
def encPkgsBody (i : Nat) : List PackageState → List Char
  | [] => []
  | p :: rest => nlt (i + 1) ++ (encPackageState (i + 1) p ++ (comma ++ encPkgsBody i rest))

/-- The full serialized state, matching `to_string_pretty` with the
source's `pretty_config` (src/db.rs lines 149-154): struct names on, tab
indentation, LF line endings. -/
def encData (d : DatabaseThingData) : List Char :=
  tokData ++ (encField 1 tokSaved (encBool d.saved_on_panic) ++
    (encField 1 tokPackages
      (obk ++ (encPkgsBody 1 d.packages ++ (nlt 1 ++ cbk))) ++
    (nlt 0 ++ cparen)))

/-- Modelled from the spec: `encode(StoreState) → text`, the Format
Adapter's serialization (the `ron` crate, not part of this repository). -/
def encode (d : DatabaseThingData) : String := String.mk (encData d)

/-! The decoder: a recursive-descent reader of the serialized form. -/

def skipWs : List Char → List Char
  | [] => []
  | c :: rest => if isWs c then skipWs rest else c :: rest

/-- Strip an expected literal prefix. -/
def stripPfx : List Char → List Char → Option (List Char)
  | [], s => some s
  | _ :: _, [] => none
  | c :: cs, d :: ds => if c = d then stripPfx cs ds else none

/-- Skip whitespace, then strip an expected token. -/
def expectTok (tok s : List Char) : Option (List Char) := stripPfx tok (skipWs s)

/-- Resolve a character escape inside a string literal. -/
def unescChar (c : Char) : Option Char :=
  if c = '"' ∨ c = '\\' ∨ c = '\'' then some c
  else if c = 'n' then some '\n'
  else if c = 't' then some '\t'
  else if c = 'r' then some '\r'
  else none

/-- Read string-literal content up to the closing quote. -/
def parseStrChars : List Char → Option (List Char × List Char)
  | [] => none
  | c :: rest =>
    if c = '"' then some ([], rest)
    else if c = '\\' then
      match rest with
      | [] => none
      | e :: rest2 =>
        match unescChar e, parseStrChars rest2 with
        | some ec, some (cs, r) => some (ec :: cs, r)
        | _, _ => none
    else
      match parseStrChars rest with
      | some (cs, r) => some (c :: cs, r)
      | none => none

def parseStringLit (s : List Char) : Option (String × List Char) :=
  match skipWs s with
  | [] => none
  | c :: rest =>
    if c = '"' then
      match parseStrChars rest with
      | some (cs, r) => some (String.mk cs, r)
      | none => none
    else none

/-- Consume a run of decimal digits, folding them onto `acc`. -/
def parseDigits (acc : Nat) : List Char → Nat × List Char
  | [] => (acc, [])
  | c :: rest => if isDig c then parseDigits (10 * acc + digVal c) rest else (acc, c :: rest)

def parseNatLit (s : List Char) : Option (Nat × List Char) :=
  match skipWs s with
  | [] => none
  | c :: rest => if isDig c then some (parseDigits 0 (c :: rest)) else none

/-- A `u32` value: a decimal natural, rejected when out of range. -/
def parseU32 (s : List Char) : Option (Fin 4294967296 × List Char) :=
  match parseNatLit s with
  | none => none
  | some (n, r) => if h : n < 4294967296 then some (⟨n, h⟩, r) else none

def parseBool (s : List Char) : Option (Bool × List Char) :=
  match expectTok tokTrue s with
  | some r => some (true, r)
  | none =>
    match expectTok tokFalse s with
    | some r => some (false, r)
    | none => none

/-- One struct field: the field-name token, the value (read by `p`), and
the separating comma. -/
def parseField {α : Type} (tok : List Char) (p : List Char → Option (α × List Char))
    (s : List Char) : Option (α × List Char) :=
  Option.bind (expectTok tok s) (fun s1 =>
  Option.bind (p s1) (fun a =>
  Option.bind (expectTok comma a.2) (fun s2 =>
  some (a.1, s2))))

def parseRepository (s : List Char) : Option (Repository × List Char) :=
  Option.bind (expectTok tokRepositoryS s) (fun s1 =>
  Option.bind (parseField tokType parseStringLit s1) (fun ty =>
  Option.bind (parseField tokUrl parseStringLit ty.2) (fun url =>
  Option.bind (expectTok cparen url.2) (fun s2 =>
  some ({ type := ty.1, url := url.1 }, s2)))))

def parsePair (s : List Char) : Option ((String × String) × List Char) :=
  Option.bind (expectTok oparen s) (fun s1 =>
  Option.bind (parseStringLit s1) (fun a =>
  Option.bind (expectTok comma a.2) (fun s2 =>
  Option.bind (parseStringLit s2) (fun b =>
  Option.bind (expectTok cparen b.2) (fun s3 =>
  some ((a.1, b.1), s3))))))

def parsePackageNew (s : List Char) : Option (PackageNew × List Char) :=
  Option.bind (expectTok tokPackageNew s) (fun s1 =>
  Option.bind (parseField tokName parseStringLit s1) (fun nm =>
  Option.bind (parseField tokRepositoryF parseRepository nm.2) (fun rp =>
  Option.bind (parseField tokDownloads parseU32 rp.2) (fun dl =>
  Option.bind (parseField tokStargazers parseU32 dl.2) (fun sg =>
  Option.bind (expectTok cparen sg.2) (fun s2 =>
  some ({ name := nm.1, repository := rp.1, downloads := dl.1,
          stargazers_count := sg.1 }, s2)))))))

def parsePackageIssueFiled (s : List Char) : Option (PackageIssueFiled × List Char) :=
  Option.bind (expectTok tokPackageIssueFiled s) (fun s1 =>
  Option.bind (parseField tokName parseStringLit s1) (fun nm =>
  Option.bind (parseField tokRepositoryF parsePair nm.2) (fun rp =>
  Option.bind (parseField tokDownloads parseU32 rp.2) (fun dl =>
  Option.bind (parseField tokStargazers parseU32 dl.2) (fun sg =>
  Option.bind (expectTok cparen sg.2) (fun s2 =>
  some ({ name := nm.1, repository := rp.1, downloads := dl.1,
          stargazers_count := sg.1 }, s2)))))))

def parsePackageState (s : List Char) : Option (PackageState × List Char) :=
  match expectTok tokNewV s with
  | some r =>
    Option.bind (parsePackageNew r) (fun p =>
    Option.bind (expectTok cparen p.2) (fun r2 =>
    some (PackageState.New p.1, r2)))
  | none =>
    match expectTok tokIssueV s with
    | some r =>
      Option.bind (parsePackageIssueFiled r) (fun p =>
      Option.bind (expectTok cparen p.2) (fun r2 =>
      some (PackageState.IssueFiled p.1, r2)))
    | none => none

/-- Elements of the packages sequence up to the closing bracket, with
fuel bounding the number of elements. -/
def parsePackagesAux : Nat → List Char → Option (List PackageState × List Char)
  | 0, _ => none
  | fuel + 1, s =>
    match expectTok cbk s with
    | some r => some ([], r)
    | none =>
      Option.bind (parsePackageState s) (fun p =>
      Option.bind (expectTok comma p.2) (fun r1 =>
      Option.bind (parsePackagesAux fuel r1) (fun ps =>
      some (p.1 :: ps.1, ps.2))))

/-- The bracketed packages sequence. -/
def parsePackagesVal (fuel : Nat) (s : List Char) : Option (List PackageState × List Char) :=
  Option.bind (expectTok obk s) (fun s1 => parsePackagesAux fuel s1)

def parseData (fuel : Nat) (s : List Char) : Option (DatabaseThingData × List Char) :=
  Option.bind (expectTok tokData s) (fun s1 =>
  Option.bind (parseField tokSaved parseBool s1) (fun b =>
  Option.bind (parseField tokPackages (parsePackagesVal fuel) b.2) (fun ps =>
  Option.bind (expectTok cparen ps.2) (fun s2 =>
  some ({ saved_on_panic := b.1, packages := ps.1 }, s2)))))

/-- Modelled from the spec: `decode(text) → StoreState`, the Format
Adapter's reader (the `ron` crate, not part of this repository).  Fails on
structurally invalid input; requires the whole input to be consumed. -/
def decode (text : String) : Except String DatabaseThingData :=
  match parseData (text.data.length + 1) text.data with
  | some (d, rest) =>
    if skipWs rest = [] then Except.ok d
    else Except.error "unexpected trailing characters"
  | none => Except.error "invalid ron"

/-! The store operations, translated from `impl DatabaseThing`. -/

/-- The default state built when the backing file does not exist
(src/db.rs lines 77-80). -/
def defaultData : DatabaseThingData := { saved_on_panic := false, packages := [] }

/-- Outcome of reading the backing file at construction: the file is
missing, the read fails, or it yields bytes that are valid text
(`some text`) or not (`none`). -/
inductive FileRead where
  | missing : FileRead
  | ioError : String → FileRead
  | content : Option String → FileRead

/-- Mirrors `DatabaseThing::new` (src/db.rs lines 66-98).  Returns the
constructed inner state plus the content written to the file, if any
write happened; every failure is propagated as an error. -/
def DatabaseThing.new (filename : String) (r : FileRead) (writeOk : Bool) (now : Nat) :
    Except String (DatabaseThingInner × Option String) :=
  match r with
  | FileRead.ioError e => Except.error ("error reading file " ++ filename ++ ": " ++ e)
  | FileRead.content none =>
    Except.error ("error parsing text in file " ++ filename ++ ": invalid utf-8")
  | FileRead.content (some text) =>
    match decode text with
    | Except.error e => Except.error ("error parsing ron in file " ++ filename ++ ": " ++ e)
    | Except.ok data =>
      Except.ok ({ meta := { filename := filename, last_write_call_time := now },
                   data := data }, none)
  | FileRead.missing =>
    let data := defaultData
    let ser := encode data
    if writeOk then
      Except.ok ({ meta := { filename := filename, last_write_call_time := now },
                   data := data }, some ser)
    else Except.error ("error writing file " ++ filename)

/-- Mirrors `add_package` (src/db.rs lines 100-105): appends the record to
the in-memory sequence and returns `Ok(())`; it touches no file. -/
def DatabaseThing.add_package (db : DatabaseThingInner) (package : PackageNew) :
    DatabaseThingInner × Except String Unit :=
  ({ db with data := { db.data with
       packages := db.data.packages ++ [PackageState.New package] } },
   Except.ok ())

/-- The loop body of `contains_package`: first match wins. -/
def containsName : List PackageState → String → Bool
  | [], _ => false
  | PackageState.New p :: rest, n => if p.name = n then true else containsName rest n
  | PackageState.IssueFiled p :: rest, n => if p.name = n then true else containsName rest n

/-- Mirrors `contains_package` (src/db.rs lines 107-119). -/
def DatabaseThing.contains_package (db : DatabaseThingInner) (package_name : String) : Bool :=
  containsName db.data.packages package_name

/-- Result of a flush: the state after it, the content written to the file
(if the write succeeded), and the logged error message (if it failed). -/
structure FlushResult where
  state : DatabaseThingInner
  written : Option String
  logged : Option String

/-- Mirrors `write_to_file_immediately_inner` (src/db.rs lines 122-134):
updates the last-write timestamp under the lock, encodes the state, then
attempts the file write, which fails when `writeOk` is false. -/
def DatabaseThing.write_to_file_immediately_inner (db : DatabaseThingInner) (now : Nat)
    (writeOk : Bool) : DatabaseThingInner × Except String String :=
  let db2 : DatabaseThingInner :=
    { db with meta := { db.meta with last_write_call_time := now } }
  let ser : String := encode db2.data
  (db2, if writeOk then Except.ok ser
        else Except.error ("write failed: " ++ db2.meta.filename))

/-- Mirrors `write_to_file_immediately` (src/db.rs lines 121-140): any
error from the inner function is logged and swallowed. -/
def DatabaseThing.write_to_file_immediately (db : DatabaseThingInner) (now : Nat)
    (writeOk : Bool) : FlushResult :=
  match DatabaseThing.write_to_file_immediately_inner db now writeOk with
  | (db2, Except.ok ser) => { state := db2, written := some ser, logged := none }
  | (db2, Except.error e) =>
    { state := db2, written := none,
      logged := some ("error when writing database file: " ++ e) }

/-- Mirrors `Drop for DatabaseThing` (src/db.rs lines 157-174): sets
`saved_on_panic` to whether the teardown happens during an abnormal
unwind, then flushes with the log-only failure policy. -/
def DatabaseThing.drop (db : DatabaseThingInner) (panicking : Bool) (now : Nat)
    (writeOk : Bool) : FlushResult :=
  let db2 : DatabaseThingInner :=
    { db with data := { db.data with saved_on_panic := panicking } }
  DatabaseThing.write_to_file_immediately db2 now writeOk

/-- States reachable from an opened store through the public operations
(queries do not mutate; `add_package` and flushes are the only mutators
during the store's lifetime). -/
inductive Reachable (init : DatabaseThingInner) : DatabaseThingInner → Prop where
  | refl : Reachable init init
  | add (s : DatabaseThingInner) (r : PackageNew) :
      Reachable init s → Reachable init (DatabaseThing.add_package s r).1
  | flush (s : DatabaseThingInner) (now : Nat) (writeOk : Bool) :
      Reachable init s → Reachable init (DatabaseThing.write_to_file_immediately s now writeOk).state

/-- Whether `sub` is a prefix of `s`, by character comparison. -/
def isPfx : List Char → List Char → Bool
  | [], _ => true
  | _ :: _, [] => false
  | c :: cs, d :: ds => if c = d then isPfx cs ds else false

/-- Whether `sub` occurs contiguously anywhere in the second list. -/
def containsSub (sub : List Char) : List Char → Bool
  | [] => isPfx sub []
  | s@(_ :: rest) => isPfx sub s || containsSub sub rest

/-- Whether every character in a list is whitespace. -/
def allWs (l : List Char) : Bool := l.all isWs

/-- Whether a list starts with a non-whitespace character. -/
def headNonWs : List Char → Bool
  | [] => false
  | c :: _ => !(isWs c)

/-- Whether two lists start with distinct characters. -/
def headDiff : List Char → List Char → Bool
  | c :: _, d :: _ => c != d
  | _, _ => false

/-- Whether a list does not start with a decimal digit. -/
def headNotDig : List Char → Bool
  | [] => true
  | c :: _ => !(isDig c)

/-- Example record shaped like the spec's file-format example. -/
def sampleNew : PackageNew :=
  { name := "foo", repository := { type := "git", url := "https://example/foo" },
    downloads := ⟨10, by decide⟩, stargazers_count := ⟨2, by decide⟩ }

/-- Example record of the other variant. -/
def sampleIssueFiled : PackageIssueFiled :=
  { name := "bar", repository := ("git", "https://example/bar"),
    downloads := ⟨3, by decide⟩, stargazers_count := ⟨1, by decide⟩ }

/-- Example store state holding one `IssueFiled` record, as if loaded at
open. -/
def sampleInner : DatabaseThingInner :=
  { meta := { filename := "db.ron", last_write_call_time := 0 },
    data := { saved_on_panic := false,
              packages := [PackageState.IssueFiled sampleIssueFiled] } }

/-! Lemmas about whitespace skipping and token stripping. -/

theorem obind_some {α β : Type} (a : α) (f : α → Option β) :
    Option.bind (some a) f = f a := rfl

theorem skipWs_allWs_append (l s : List Char) (h : allWs l = true) :
    skipWs (l ++ s) = skipWs s := by
  induction l with
  | nil => rfl
  | cons c l ih =>
    simp only [allWs, List.all_cons, Bool.and_eq_true] at h
    simp only [List.cons_append, skipWs, h.1, if_true]
    exact ih h.2

theorem skipWs_cons_nonWs (c : Char) (s : List Char) (h : isWs c = false) :
    skipWs (c :: s) = c :: s := by
  simp [skipWs, h]

theorem allWs_tabs (i : Nat) : allWs (tabs i) = true := by
  induction i with
  | zero => rfl
  | succ i ih => simpa [tabs, allWs, List.all_cons, isWs] using ih

theorem allWs_nlt (i : Nat) : allWs (nlt i) = true := by
  simpa [nlt, allWs, List.all_cons, isWs] using allWs_tabs i

theorem stripPfx_append (p s : List Char) : stripPfx p (p ++ s) = some s := by
  induction p with
  | nil => rfl
  | cons c p ih => simpa [stripPfx] using ih

theorem expectTok_self (tok s : List Char) (h : headNonWs tok = true) :
    expectTok tok (tok ++ s) = some s := by
  match tok, h with
  | c :: cs, h =>
    simp only [headNonWs, Bool.not_eq_true'] at h
    unfold expectTok
    rw [List.cons_append, skipWs_cons_nonWs c _ h, ← List.cons_append, stripPfx_append]

theorem expectTok_nlt (tok : List Char) (i : Nat) (s : List Char) :
    expectTok tok (nlt i ++ s) = expectTok tok s := by
  unfold expectTok
  rw [skipWs_allWs_append _ _ (allWs_nlt i)]

theorem expectTok_spc (tok s : List Char) :
    expectTok tok (spc ++ s) = expectTok tok s := by
  unfold expectTok
  rw [skipWs_allWs_append _ _ (by decide)]

theorem expectTok_headDiff (tok l s : List Char) (h1 : headNonWs l = true)
    (h2 : headDiff tok l = true) : expectTok tok (l ++ s) = none := by
  match tok, l, h1, h2 with
  | c :: cs, d :: ds, h1, h2 =>
    simp only [headNonWs, Bool.not_eq_true'] at h1
    simp only [headDiff, bne_iff_ne, ne_eq] at h2
    unfold expectTok
    rw [List.cons_append, skipWs_cons_nonWs d _ h1]
    simp [stripPfx, h2]

/-! String literals round-trip through the escaper and the reader. -/

theorem parseStrChars_enc (l rest : List Char) :
    parseStrChars (encStrChars l ++ ('"' :: rest)) = some (l, rest) := by
  induction l with
  | nil =>
    rw [show encStrChars [] ++ ('"' :: rest) = '"' :: rest from rfl, parseStrChars.eq_def]
    simp
  | cons c l ih =>
    by_cases hc : c = '"' ∨ c = '\\'
    · have h2 : unescChar c = some c := by
        unfold unescChar
        rcases hc with h | h <;> simp [h]
      simp only [encStrChars, escChar, if_pos hc, List.cons_append, List.nil_append]
      rw [parseStrChars.eq_def]
      simp only [h2, ih]
      simp
    · push_neg at hc
      simp only [encStrChars, escChar, if_neg (not_or.mpr ⟨hc.1, hc.2⟩), List.cons_append,
        List.nil_append]
      rw [parseStrChars.eq_def]
      simp only [ih, if_neg hc.1, if_neg hc.2]

theorem parseStringLit_enc (str : String) (rest : List Char) :
    parseStringLit (encStrLit str ++ rest) = some (str, rest) := by
  unfold encStrLit parseStringLit
  rw [List.cons_append, skipWs_cons_nonWs _ _ (by decide), List.append_assoc,
    List.singleton_append]
  simp [parseStrChars_enc]

theorem parseStringLit_spc (s : List Char) :
    parseStringLit (spc ++ s) = parseStringLit s := by
  unfold parseStringLit
  rw [skipWs_allWs_append _ _ (by decide)]

/-! Decimal numerals round-trip. -/

theorem isDig_digChar (k : Nat) (h : k < 10) : isDig (digChar k) = true := by
  interval_cases k <;> decide

theorem digVal_digChar (k : Nat) (h : k < 10) : digVal (digChar k) = k := by
  interval_cases k <;> decide

theorem encNatAux_append (fuel : Nat) : ∀ (n : Nat) (acc : List Char),
    encNatAux fuel n acc = encNatAux fuel n [] ++ acc := by
  induction fuel with
  | zero => intro n acc; rfl
  | succ fuel ih =>
    intro n acc
    by_cases h : n < 10
    · simp [encNatAux, h]
    · simp only [encNatAux, if_neg h]
      rw [ih (n / 10) (digChar (n % 10) :: acc), ih (n / 10) [digChar (n % 10)]]
      simp

theorem encNatAux_digs (fuel : Nat) : ∀ (n : Nat), ∀ c ∈ encNatAux fuel n [], isDig c = true := by
  induction fuel with
  | zero => intro n c hc; simp [encNatAux] at hc
  | succ fuel ih =>
    intro n c hc
    by_cases h : n < 10
    · simp only [encNatAux, if_pos h, List.mem_singleton] at hc
      exact hc ▸ isDig_digChar n h
    · simp only [encNatAux, if_neg h] at hc
      rw [encNatAux_append] at hc
      rcases List.mem_append.mp hc with h1 | h1
      · exact ih (n / 10) c h1
      · rw [List.mem_singleton] at h1
        exact h1 ▸ isDig_digChar _ (Nat.mod_lt n (by omega))

theorem encNatAux_ne_nil (fuel n : Nat) (h : 0 < fuel) : encNatAux fuel n [] ≠ [] := by
  match fuel, h with
  | fuel + 1, _ =>
    by_cases h10 : n < 10
    · simp [encNatAux, h10]
    · simp only [encNatAux, if_neg h10]
      rw [encNatAux_append]
      simp

theorem parseDigits_append (ds : List Char) : ∀ (rest : List Char) (acc : Nat),
    (∀ c ∈ ds, isDig c = true) → headNotDig rest = true →
    parseDigits acc (ds ++ rest) = (ds.foldl (fun a c => 10 * a + digVal c) acc, rest) := by
  induction ds with
  | nil =>
    intro rest acc _ hrest
    match rest, hrest with
    | [], _ => rfl
    | r :: rs, hrest =>
      simp only [headNotDig, Bool.not_eq_true'] at hrest
      simp [parseDigits, hrest]
  | cons d ds ih =>
    intro rest acc hds hrest
    have hd : isDig d = true := hds d (List.mem_cons_self d ds)
    simp only [List.cons_append, parseDigits, hd, if_true, List.foldl_cons]
    exact ih rest _ (fun c hc => hds c (List.mem_cons_of_mem d hc)) hrest

theorem foldl_encNatAux (fuel : Nat) : ∀ (n a : Nat), n < fuel →
    (encNatAux fuel n []).foldl (fun a c => 10 * a + digVal c) a =
      a * 10 ^ (encNatAux fuel n []).length + n := by
  induction fuel with
  | zero => intro n a h; omega
  | succ fuel ih =>
    intro n a h
    by_cases h10 : n < 10
    · simp only [encNatAux, if_pos h10, List.foldl_cons, List.foldl_nil, List.length_singleton,
        digVal_digChar n h10, pow_one]
      omega
    · simp only [encNatAux, if_neg h10]
      rw [encNatAux_append]
      have hlt : n / 10 < fuel := by omega
      rw [List.foldl_append, List.length_append, ih (n / 10) a hlt]
      simp only [List.foldl_cons, List.foldl_nil, List.length_singleton,
        digVal_digChar _ (Nat.mod_lt n (by omega))]
      rw [Nat.mul_add, pow_succ]
      ring_nf
      omega

theorem isWs_of_isDig (c : Char) (h : isDig c = true) : isWs c = false := by
  simp only [isDig, Bool.and_eq_true, decide_eq_true_eq] at h
  unfold isWs
  rw [beq_false_of_ne (by omega : c.toNat ≠ 32), beq_false_of_ne (by omega : c.toNat ≠ 10),
    beq_false_of_ne (by omega : c.toNat ≠ 9), beq_false_of_ne (by omega : c.toNat ≠ 13)]
  rfl

theorem parseNatLit_enc (n : Nat) (rest : List Char) (hrest : headNotDig rest = true) :
    parseNatLit (encNat n ++ rest) = some (n, rest) := by
  have hne : encNat n ≠ [] := encNatAux_ne_nil (n + 1) n (Nat.succ_pos n)
  obtain ⟨c, cs, hcs⟩ := List.exists_cons_of_ne_nil hne
  have hdig : isDig c = true := by
    apply encNatAux_digs (n + 1) n
    rw [show encNatAux (n + 1) n [] = encNat n from rfl, hcs]
    exact List.mem_cons_self c cs
  unfold parseNatLit
  rw [hcs, List.cons_append, skipWs_cons_nonWs _ _ (isWs_of_isDig c hdig)]
  simp only [hdig, if_true, ← List.cons_append, ← hcs]
  rw [parseDigits_append (encNat n) rest 0 (encNatAux_digs (n + 1) n) hrest]
  have hf : (encNat n).foldl (fun a c => 10 * a + digVal c) 0 = n := by
    have := foldl_encNatAux (n + 1) n 0 (Nat.lt_succ_self n)
    simpa [encNat] using this
  rw [hf]

theorem parseU32_enc (v : Fin 4294967296) (rest : List Char)
    (hrest : headNotDig rest = true) : parseU32 (encU32 v ++ rest) = some (v, rest) := by
  unfold parseU32 encU32
  rw [parseNatLit_enc v.val rest hrest]
  simp [v.isLt]

theorem parseNatLit_spc (s : List Char) : parseNatLit (spc ++ s) = parseNatLit s := by
  unfold parseNatLit
  rw [skipWs_allWs_append _ _ (by decide)]

theorem parseU32_spc_comma (v : Fin 4294967296) (rest : List Char) :
    parseU32 (spc ++ (encU32 v ++ (comma ++ rest))) = some (v, comma ++ rest) := by
  unfold parseU32 encU32
  rw [parseNatLit_spc, parseNatLit_enc v.val (comma ++ rest)
    (by simp only [comma, List.singleton_append, headNotDig]; decide)]
  simp [v.isLt]

/-! Booleans, fields, and composite structures round-trip. -/

theorem parseBool_enc (b : Bool) (rest : List Char) :
    parseBool (encBool b ++ rest) = some (b, rest) := by
  cases b
  · unfold parseBool encBool
    rw [show cond false tokTrue tokFalse = tokFalse from rfl,
      expectTok_headDiff tokTrue tokFalse rest (by decide) (by decide),
      expectTok_self tokFalse rest (by decide)]
  · unfold parseBool encBool
    rw [show cond true tokTrue tokFalse = tokTrue from rfl,
      expectTok_self tokTrue rest (by decide)]

theorem parseBool_spc (s : List Char) : parseBool (spc ++ s) = parseBool s := by
  unfold parseBool
  rw [expectTok_spc, expectTok_spc]

theorem parseField_enc {α : Type} (tok : List Char) (p : List Char → Option (α × List Char))
    (j : Nat) (encV : List Char) (v : α) (rest : List Char)
    (htok : headNonWs tok = true)
    (hp : p (spc ++ (encV ++ (comma ++ rest))) = some (v, comma ++ rest)) :
    parseField tok p (encField j tok encV ++ rest) = some (v, rest) := by
  unfold parseField encField
  simp only [List.append_assoc]
  rw [expectTok_nlt, expectTok_self tok _ htok, obind_some, hp, obind_some]
  dsimp only
  rw [expectTok_self comma _ (by decide), obind_some]

theorem parseField_name (j : Nat) (str : String) (rest : List Char) :
    parseField tokName parseStringLit (encField j tokName (encStrLit str) ++ rest) =
      some (str, rest) :=
  parseField_enc tokName parseStringLit j (encStrLit str) str rest (by decide)
    (by rw [parseStringLit_spc, parseStringLit_enc])

theorem parseField_type (j : Nat) (str : String) (rest : List Char) :
    parseField tokType parseStringLit (encField j tokType (encStrLit str) ++ rest) =
      some (str, rest) :=
  parseField_enc tokType parseStringLit j (encStrLit str) str rest (by decide)
    (by rw [parseStringLit_spc, parseStringLit_enc])

theorem parseField_url (j : Nat) (str : String) (rest : List Char) :
    parseField tokUrl parseStringLit (encField j tokUrl (encStrLit str) ++ rest) =
      some (str, rest) :=
  parseField_enc tokUrl parseStringLit j (encStrLit str) str rest (by decide)
    (by rw [parseStringLit_spc, parseStringLit_enc])

theorem parseField_downloads (j : Nat) (v : Fin 4294967296) (rest : List Char) :
    parseField tokDownloads parseU32 (encField j tokDownloads (encU32 v) ++ rest) =
      some (v, rest) :=
  parseField_enc tokDownloads parseU32 j (encU32 v) v rest (by decide)
    (parseU32_spc_comma v rest)

theorem parseField_stargazers (j : Nat) (v : Fin 4294967296) (rest : List Char) :
    parseField tokStargazers parseU32 (encField j tokStargazers (encU32 v) ++ rest) =
      some (v, rest) :=
  parseField_enc tokStargazers parseU32 j (encU32 v) v rest (by decide)
    (parseU32_spc_comma v rest)

theorem parseField_saved (j : Nat) (b : Bool) (rest : List Char) :
    parseField tokSaved parseBool (encField j tokSaved (encBool b) ++ rest) =
      some (b, rest) :=
  parseField_enc tokSaved parseBool j (encBool b) b rest (by decide)
    (by rw [parseBool_spc, parseBool_enc])

theorem parseRepository_spc (s : List Char) :
    parseRepository (spc ++ s) = parseRepository s := by
  unfold parseRepository
  rw [expectTok_spc]

theorem parseRepository_enc (i : Nat) (r : Repository) (rest : List Char) :
    parseRepository (encRepository i r ++ rest) = some (r, rest) := by
  unfold parseRepository encRepository
  simp only [List.append_assoc]
  rw [expectTok_self tokRepositoryS _ (by decide), obind_some, parseField_type, obind_some]
  dsimp only
  rw [parseField_url, obind_some]
  dsimp only
  rw [expectTok_nlt, expectTok_self cparen _ (by decide), obind_some]

theorem parseField_repo (i j : Nat) (r : Repository) (rest : List Char) :
    parseField tokRepositoryF parseRepository
      (encField j tokRepositoryF (encRepository i r) ++ rest) = some (r, rest) :=
  parseField_enc tokRepositoryF parseRepository j (encRepository i r) r rest (by decide)
    (by rw [parseRepository_spc, parseRepository_enc])

theorem parsePair_spc (s : List Char) : parsePair (spc ++ s) = parsePair s := by
  unfold parsePair
  rw [expectTok_spc]

theorem parsePair_enc (p : String × String) (rest : List Char) :
    parsePair (encPair p ++ rest) = some (p, rest) := by
  unfold parsePair encPair
  simp only [List.append_assoc]
  rw [expectTok_self oparen _ (by decide), obind_some, parseStringLit_enc, obind_some]
  dsimp only
  rw [expectTok_self comma _ (by decide), obind_some, parseStringLit_spc, parseStringLit_enc,
    obind_some]
  dsimp only
  rw [expectTok_self cparen _ (by decide), obind_some]

theorem parseField_pair (j : Nat) (p : String × String) (rest : List Char) :
    parseField tokRepositoryF parsePair (encField j tokRepositoryF (encPair p) ++ rest) =
      some (p, rest) :=
  parseField_enc tokRepositoryF parsePair j (encPair p) p rest (by decide)
    (by rw [parsePair_spc, parsePair_enc])

theorem parsePackageNew_enc (i : Nat) (p : PackageNew) (rest : List Char) :
    parsePackageNew (encPackageNew i p ++ rest) = some (p, rest) := by
  unfold parsePackageNew encPackageNew
  simp only [List.append_assoc]
  rw [expectTok_self tokPackageNew _ (by decide), obind_some, parseField_name, obind_some]
  dsimp only
  rw [parseField_repo, obind_some]
  dsimp only
  rw [parseField_downloads, obind_some]
  dsimp only
  rw [parseField_stargazers, obind_some]
  dsimp only
  rw [expectTok_nlt, expectTok_self cparen _ (by decide), obind_some]

theorem parsePackageIssueFiled_enc (i : Nat) (p : PackageIssueFiled) (rest : List Char) :
    parsePackageIssueFiled (encPackageIssueFiled i p ++ rest) = some (p, rest) := by
  unfold parsePackageIssueFiled encPackageIssueFiled
  simp only [List.append_assoc]
  rw [expectTok_self tokPackageIssueFiled _ (by decide), obind_some, parseField_name, obind_some]
  dsimp only
  rw [parseField_pair, obind_some]
  dsimp only
  rw [parseField_downloads, obind_some]
  dsimp only
  rw [parseField_stargazers, obind_some]
  dsimp only
  rw [expectTok_nlt, expectTok_self cparen _ (by decide), obind_some]

/-! The packages sequence and the whole state round-trip. -/

theorem parsePackageState_nlt (i : Nat) (s : List Char) :
    parsePackageState (nlt i ++ s) = parsePackageState s := by
  unfold parsePackageState
  rw [expectTok_nlt, expectTok_nlt]

theorem parsePackageState_enc (i : Nat) (p : PackageState) (rest : List Char) :
    parsePackageState (encPackageState i p ++ rest) = some (p, rest) := by
  cases p with
  | New pn =>
    unfold parsePackageState
    simp only [encPackageState, List.append_assoc]
    rw [expectTok_self tokNewV _ (by decide)]
    dsimp only
    rw [parsePackageNew_enc, obind_some]
    dsimp only
    rw [expectTok_self cparen _ (by decide), obind_some]
  | IssueFiled pf =>
    unfold parsePackageState
    simp only [encPackageState, List.append_assoc]
    rw [expectTok_headDiff tokNewV tokIssueV _ (by decide) (by decide)]
    dsimp only
    rw [expectTok_self tokIssueV _ (by decide)]
    dsimp only
    rw [parsePackageIssueFiled_enc, obind_some]
    dsimp only
    rw [expectTok_self cparen _ (by decide), obind_some]

theorem expectTok_cbk_encPS (i : Nat) (p : PackageState) (s : List Char) :
    expectTok cbk (encPackageState i p ++ s) = none := by
  cases p <;> simp only [encPackageState, List.append_assoc] <;>
    exact expectTok_headDiff cbk _ _ (by decide) (by decide)

theorem parsePackagesAux_enc (i : Nat) (ps : List PackageState) :
    ∀ (fuel : Nat) (rest : List Char), ps.length < fuel →
    parsePackagesAux fuel (encPkgsBody i ps ++ (nlt i ++ (cbk ++ rest))) = some (ps, rest) := by
  induction ps with
  | nil =>
    intro fuel rest h
    match fuel, h with
    | fuel + 1, _ =>
      simp only [encPkgsBody, List.nil_append]
      unfold parsePackagesAux
      rw [expectTok_nlt, expectTok_self cbk _ (by decide)]
  | cons p tl ih =>
    intro fuel rest h
    match fuel, h with
    | fuel + 1, h =>
      simp only [encPkgsBody, List.append_assoc]
      unfold parsePackagesAux
      rw [expectTok_nlt, expectTok_cbk_encPS]
      dsimp only
      rw [parsePackageState_nlt, parsePackageState_enc, obind_some]
      dsimp only
      rw [expectTok_self comma _ (by decide), obind_some]
      have htl : tl.length < fuel := by
        simp only [List.length_cons] at h
        omega
      rw [ih fuel _ htl, obind_some]

theorem parseData_enc (d : DatabaseThingData) (fuel : Nat) (rest : List Char)
    (hf : d.packages.length < fuel) :
    parseData fuel (encData d ++ rest) = some (d, rest) := by
  have hpk : parsePackagesVal fuel
      (spc ++ ((obk ++ (encPkgsBody 1 d.packages ++ (nlt 1 ++ cbk))) ++
        (comma ++ (nlt 0 ++ (cparen ++ rest))))) =
      some (d.packages, comma ++ (nlt 0 ++ (cparen ++ rest))) := by
    unfold parsePackagesVal
    rw [expectTok_spc]
    simp only [List.append_assoc]
    rw [expectTok_self obk _ (by decide), obind_some]
    exact parsePackagesAux_enc 1 d.packages fuel _ hf
  unfold parseData encData
  simp only [List.append_assoc]
  rw [expectTok_self tokData _ (by decide), obind_some, parseField_saved, obind_some]
  dsimp only
  rw [parseField_enc tokPackages (parsePackagesVal fuel) 1
    (obk ++ (encPkgsBody 1 d.packages ++ (nlt 1 ++ cbk))) d.packages
    (nlt 0 ++ (cparen ++ rest)) (by decide) hpk, obind_some]
  dsimp only
  rw [expectTok_nlt, expectTok_self cparen _ (by decide), obind_some]

theorem encPkgsBody_len (i : Nat) (ps : List PackageState) :
    ps.length ≤ (encPkgsBody i ps).length := by
  induction ps with
  | nil => simp [encPkgsBody]
  | cons p tl ih =>
    simp only [encPkgsBody, nlt, List.length_append, List.length_cons]
    omega

theorem encData_len (d : DatabaseThingData) :
    d.packages.length ≤ (encData d).length := by
  have h := encPkgsBody_len 1 d.packages
  simp only [encData, encField, List.length_append]
  omega

/-- Core round-trip: reading back an encoded state restores it exactly. -/
theorem decode_encode (d : DatabaseThingData) : decode (encode d) = Except.ok d := by
  unfold decode encode
  have hlen : d.packages.length < (String.mk (encData d)).data.length + 1 := by
    have h := encData_len d
    simp only [String.mk]
    omega
  have h1 := parseData_enc d ((String.mk (encData d)).data.length + 1) [] hlen
  rw [List.append_nil] at h1
  rw [show (String.mk (encData d)).data = encData d from rfl] at h1 ⊢
  rw [h1]
  simp [skipWs]

/-! Store-operation lemmas. -/

theorem containsName_append_new (l : List PackageState) (r : PackageNew) :
    containsName (l ++ [PackageState.New r]) r.name = true := by
  induction l with
  | nil => simp [containsName]
  | cons p tl ih =>
    cases p with
    | New pn =>
      by_cases hn : pn.name = r.name
      · simp [containsName, hn]
      · simp [containsName, hn, ih]
    | IssueFiled pf =>
      by_cases hn : pf.name = r.name
      · simp [containsName, hn]
      · simp [containsName, hn, ih]

theorem containsName_iff (l : List PackageState) (n : String) :
    containsName l n = true ↔ ∃ p, p ∈ l ∧ packageName p = n := by
  induction l with
  | nil => simp [containsName]
  | cons p tl ih =>
    have hname : containsName (p :: tl) n =
        if packageName p = n then true else containsName tl n := by
      cases p <;> simp [containsName, packageName]
    rw [hname]
    by_cases hp : packageName p = n
    · simp only [hp, if_true, true_iff]
      exact ⟨p, List.mem_cons_self _ _, hp⟩
    · rw [if_neg hp, ih]
      constructor
      · rintro ⟨q, hq, hqn⟩
        exact ⟨q, List.mem_cons_of_mem _ hq, hqn⟩
      · rintro ⟨q, hq, hqn⟩
        rcases List.mem_cons.mp hq with h | h
        · subst h; exact absurd hqn hp
        · exact ⟨q, h, hqn⟩

theorem wtfi_state_data (db : DatabaseThingInner) (now : Nat) (writeOk : Bool) :
    (DatabaseThing.write_to_file_immediately db now writeOk).state.data = db.data := by
  cases writeOk <;> rfl

/-! Substring-occurrence lemmas for the rendered field names. -/

theorem isPfx_refl_append (p s : List Char) : isPfx p (p ++ s) = true := by
  induction p with
  | nil => rfl
  | cons c p ih => simpa [isPfx] using ih

theorem containsSub_of_isPfx (sub s : List Char) (h : isPfx sub s = true) :
    containsSub sub s = true := by
  cases s with
  | nil => exact h
  | cons c t => simp [containsSub, h]

theorem containsSub_self_append (sub t : List Char) :
    containsSub sub (sub ++ t) = true :=
  containsSub_of_isPfx _ _ (isPfx_refl_append sub t)

theorem containsSub_append_left (sub a s : List Char) (h : containsSub sub s = true) :
    containsSub sub (a ++ s) = true := by
  induction a with
  | nil => simpa using h
  | cons c a ih => simp [containsSub, ih]

/-! The claims. -/

/-- C1: for every StoreState `S` (any sequence of `New` and `IssueFiled`
records and any `saved_on_panic` value), decoding the text produced by
encoding `S` yields a state equal to `S` field-for-field, including the
variant tag of each record, the order of fields, and the order of the
record sequence (equality of `DatabaseThingData` values is exactly
field-for-field equality with ordered lists). -/
theorem C1_decode_encode_roundtrip (S : DatabaseThingData) :
    decode (encode S) = Except.ok S :=
  decode_encode S

/-- C2: `add_package` always returns `Ok(())`, appends the record to the
in-memory sequence (its codomain carries no file output, mirroring that it
never writes to disk), leaves the metadata untouched, and immediately
afterwards `contains_package` on the same store finds the record's name,
with no flush in between. -/
theorem C2_add_package_then_contains (db : DatabaseThingInner) (r : PackageNew) :
    (DatabaseThing.add_package db r).2 = Except.ok () ∧
    (DatabaseThing.add_package db r).1.data.packages =
      db.data.packages ++ [PackageState.New r] ∧
    (DatabaseThing.add_package db r).1.meta = db.meta ∧
    DatabaseThing.contains_package (DatabaseThing.add_package db r).1 r.name = true :=
  ⟨rfl, rfl, rfl, containsName_append_new db.data.packages r⟩

/-- C3: opening a missing path builds the default state (empty sequence,
`saved_on_panic = false`), encodes it and writes it immediately; a failed
initial write makes construction fail; and the created file's content
decodes to the default empty state. -/
theorem C3_open_missing (f : String) (now : Nat) :
    DatabaseThing.new f FileRead.missing true now =
      Except.ok ({ meta := { filename := f, last_write_call_time := now },
                   data := defaultData }, some (encode defaultData)) ∧
    (∃ e, DatabaseThing.new f FileRead.missing false now = Except.error e) ∧
    decode (encode defaultData) = Except.ok defaultData :=
  ⟨rfl, ⟨"error writing file " ++ f, rfl⟩, decode_encode defaultData⟩

/-- C4: opening an existing path whose content is not valid text, or not
structurally valid serialized state, returns an error naming the path to
the caller; no store value is produced and no empty state is silently
substituted. -/
theorem C4_open_invalid (f : String) (w : Bool) (now : Nat) (txt e0 : String)
    (h : decode txt = Except.error e0) :
    (∃ e, DatabaseThing.new f (FileRead.content (some txt)) w now =
      Except.error ("error parsing ron in file " ++ f ++ ": " ++ e)) ∧
    (∃ e2, DatabaseThing.new f (FileRead.content none) w now = Except.error e2) := by
  constructor
  · refine ⟨e0, ?_⟩
    simp only [DatabaseThing.new]
    rw [h]
  · exact ⟨"error parsing text in file " ++ f ++ ": invalid utf-8", rfl⟩

/-- C4 witness: a concrete structurally invalid text makes `open` fail. -/
theorem C4_witness :
    decode "garbage" = Except.error "invalid ron" ∧
    (∃ e, DatabaseThing.new "db.ron" (FileRead.content (some "garbage")) true 0 =
      Except.error ("error parsing ron in file " ++ "db.ron" ++ ": " ++ e)) :=
  ⟨rfl, (C4_open_invalid "db.ron" true 0 "garbage" "invalid ron" rfl).1⟩

/-- C5: teardown during an abnormal unwind sets `saved_on_panic = true` in
the state before flushing, and the written backing-file content decodes to
a state with `saved_on_panic = true`. -/
theorem C5_teardown_panicking (db : DatabaseThingInner) (now : Nat) :
    (DatabaseThing.drop db true now true).state.data.saved_on_panic = true ∧
    ∃ s d, (DatabaseThing.drop db true now true).written = some s ∧
      decode s = Except.ok d ∧ d.saved_on_panic = true :=
  ⟨rfl, encode { db.data with saved_on_panic := true },
   { db.data with saved_on_panic := true }, rfl, decode_encode _, rfl⟩

/-- C6: `contains_package` is a case-sensitive scan over the name field of
every record regardless of variant: it returns true exactly when some
record (either `New` or `IssueFiled`) has a name equal to the argument,
and false when the sequence is exhausted without a match. -/
theorem C6_contains_variant_agnostic (db : DatabaseThingInner) (n : String) :
    DatabaseThing.contains_package db n = true ↔
      ∃ p, p ∈ db.data.packages ∧ packageName p = n :=
  containsName_iff db.data.packages n

/-- C7: `write_to_file_immediately` and teardown's flush are total and
never propagate failure: on success the encoded state is written and
nothing is logged; on write failure nothing is written, the error is
logged, and the in-memory data is left intact (only the flush timestamp in
the metadata changes). -/
theorem C7_flush_never_propagates (db : DatabaseThingInner) (now : Nat) :
    ((DatabaseThing.write_to_file_immediately db now true).state.data = db.data ∧
     (DatabaseThing.write_to_file_immediately db now true).written = some (encode db.data) ∧
     (DatabaseThing.write_to_file_immediately db now true).logged = none) ∧
    ((DatabaseThing.write_to_file_immediately db now false).state.data = db.data ∧
     (DatabaseThing.write_to_file_immediately db now false).written = none ∧
     (DatabaseThing.write_to_file_immediately db now false).logged.isSome = true) ∧
    (∀ p : Bool,
      (DatabaseThing.drop db p now false).written = none ∧
      (DatabaseThing.drop db p now false).logged.isSome = true ∧
      (DatabaseThing.drop db p now false).state.data.packages = db.data.packages) :=
  ⟨⟨rfl, rfl, rfl⟩, ⟨rfl, rfl, rfl⟩, fun _ => ⟨rfl, rfl, rfl⟩⟩

/-- C8 counterexample: on the spec's own example record, the encoder
renders no field named `kind` and no field named `stargazers`; the claim's
field names do not occur in the output (a field name renders as
`name:`). -/
theorem C8_counterexample :
    containsSub "kind:".data (encPackageState 0 (PackageState.New sampleNew)) = false ∧
    containsSub "stargazers:".data (encPackageState 0 (PackageState.New sampleNew)) = false :=
  ⟨by decide, by decide⟩

/-- C8 amended: for every `New` record, the encoder renders the repository
as a named `Repository` value whose fields are named `type` and `url`, and
renders the stargazer count under the field name `stargazers_count`,
matching the struct declarations in the source. -/
theorem C8_new_field_names (p : PackageNew) (i : Nat) :
    containsSub tokRepositoryS (encPackageState i (PackageState.New p)) = true ∧
    containsSub tokType (encPackageState i (PackageState.New p)) = true ∧
    containsSub tokUrl (encPackageState i (PackageState.New p)) = true ∧
    containsSub tokStargazers (encPackageState i (PackageState.New p)) = true := by
  refine ⟨?_, ?_, ?_, ?_⟩ <;>
  · simp only [encPackageState, encPackageNew, encRepository, encField, List.append_assoc]
    repeat
      first
      | exact containsSub_self_append _ _
      | apply containsSub_append_left

/-- C9: teardown during a normal scope exit unconditionally assigns
`saved_on_panic = false` before flushing — for every state, including one
whose `saved_on_panic` was loaded as true — and the written backing-file
content decodes with `saved_on_panic = false` and unchanged packages. -/
theorem C9_teardown_normal (db : DatabaseThingInner) (now : Nat) :
    (DatabaseThing.drop db false now true).state.data.saved_on_panic = false ∧
    ∃ s d, (DatabaseThing.drop db false now true).written = some s ∧
      decode s = Except.ok d ∧ d.saved_on_panic = false ∧
      d.packages = db.data.packages :=
  ⟨rfl, encode { db.data with saved_on_panic := false },
   { db.data with saved_on_panic := false }, rfl, decode_encode _, rfl, rfl⟩

/-- C10: the public mutation interface appends only `New` records: every
`IssueFiled` record in any state reachable from the state at open was
already present at open; no operation converts a record between
variants. -/
theorem C10_issuefiled_only_from_open (init s : DatabaseThingInner) (h : Reachable init s) :
    ∀ pf : PackageIssueFiled, PackageState.IssueFiled pf ∈ s.data.packages →
      PackageState.IssueFiled pf ∈ init.data.packages := by
  induction h with
  | refl => exact fun pf hpf => hpf
  | add s r _ ih =>
    intro pf hpf
    have hmem : PackageState.IssueFiled pf ∈
        s.data.packages ++ [PackageState.New r] := hpf
    rcases List.mem_append.mp hmem with h1 | h1
    · exact ih pf h1
    · simp at h1
  | flush s now wOk _ ih =>
    intro pf hpf
    apply ih
    rw [wtfi_state_data s now wOk] at hpf
    exact hpf

/-- C10 witness: from a state opened with one `IssueFiled` record, after an
`add_package` the `IssueFiled` record is still traced back to the state at
open. -/
theorem C10_witness :
    Reachable sampleInner (DatabaseThing.add_package sampleInner sampleNew).1 ∧
    PackageState.IssueFiled sampleIssueFiled ∈
      (DatabaseThing.add_package sampleInner sampleNew).1.data.packages ∧
    PackageState.IssueFiled sampleIssueFiled ∈ sampleInner.data.packages := by
  have hr : Reachable sampleInner (DatabaseThing.add_package sampleInner sampleNew).1 :=
    Reachable.add sampleInner sampleNew Reachable.refl
  have hm : PackageState.IssueFiled sampleIssueFiled ∈
      (DatabaseThing.add_package sampleInner sampleNew).1.data.packages := by decide
  exact ⟨hr, hm, C10_issuefiled_only_from_open sampleInner _ hr sampleIssueFiled hm⟩
